import Mathlib

/-!
Verification development for the lightweightchart-agent detection core.

The Python sources are shallowly embedded here:
* `detectors/accumulation.py` → namespace `Accumulation`
* `detectors/fvg.py`          → namespace `Fvg`
* `detectors/supply_demand.py`→ namespace `SupplyDemand`
* the accumulation branch of `PairServer._process_alerts` in `server.py`
  → namespace `AlertLifecycle`

Conventions: float arithmetic is embedded as exact rational arithmetic (ℚ);
unix timestamps are ℤ; Python `round(x, n)` (banker's rounding) is `roundTo`;
Python `None` results are `Option.none` or an explicit constructor.
The wall clock read by the detectors (`datetime.now(timezone.utc)`) is passed
in explicitly as a `Clock` value (UTC weekday and hour), and network reads
(yfinance bias fetch) are passed in as already-resolved values.
-/

/-- Python `round` to an integer: round half to even (banker's rounding). -/
def roundHalfEven (x : ℚ) : ℤ :=
  let n := ⌊x⌋
  let f := x - n
  if f < 1/2 then n
  else if 1/2 < f then n + 1
  else if Even n then n else n + 1

/-- `10 ^ d` as a ℚ, written recursively so that it evaluates by kernel
reduction (the `Monoid.npow` instance path does not). -/
def tenPow : ℕ → ℚ
  | 0 => 1
  | d + 1 => 10 * tenPow d

/-- Python `round(x, d)`: round to `d` decimal places, ties to even. -/
def roundTo (x : ℚ) (d : ℕ) : ℚ :=
  (roundHalfEven (x * tenPow d) : ℚ) / tenPow d

/-- One OHLC candle. Field names follow the DataFrame columns
`Open/High/Low/Close`; `time` is the unix timestamp of the candle index. -/
structure Candle where
  time : ℤ
  Open : ℚ
  High : ℚ
  Low : ℚ
  Close : ℚ
deriving DecidableEq

instance : Inhabited Candle := ⟨⟨0, 0, 0, 0, 0⟩⟩

/-- Body top of a candle: `max(open, close)`. -/
def bodyHigh (cd : Candle) : ℚ := max cd.Open cd.Close

/-- Body bottom of a candle: `min(open, close)`. -/
def bodyLow (cd : Candle) : ℚ := min cd.Open cd.Close

/-- `numpy .max()` over a candle-derived list (callers guarantee nonempty). -/
def listMax : List ℚ → ℚ
  | [] => 0
  | x :: xs => xs.foldl max x

/-- `numpy .min()` over a candle-derived list (callers guarantee nonempty). -/
def listMin : List ℚ → ℚ
  | [] => 0
  | x :: xs => xs.foldl min x

/-- Arithmetic mean of a list (0 for the empty list, which callers guard). -/
def listMean (l : List ℚ) : ℚ := l.sum / l.length

/-- The current UTC wall clock as the detectors read it:
`dow` is `datetime.weekday()` (0 = Monday … 6 = Sunday), `hour` is the UTC hour. -/
structure Clock where
  dow : ℕ
  hour : ℕ
deriving DecidableEq

namespace Accumulation

/-- `detectors/accumulation.py::is_weekend_halt`. -/
def is_weekend_halt (now : Clock) : Bool :=
  if now.dow = 4 ∧ 23 ≤ now.hour then true
  else if now.dow = 5 then true
  else if now.dow = 6 ∧ now.hour < 22 then true
  else false

/-- `detectors/accumulation.py::get_current_session`. -/
def get_current_session (now : Clock) : Option String :=
  if is_weekend_halt now then none
  else if 13 ≤ now.hour ∧ now.hour < 19 then some "new_york"
  else if 8 ≤ now.hour ∧ now.hour < 12 then some "london"
  else if 1 ≤ now.hour ∧ now.hour < 7 then some "asian"
  else none

/-- `_slope_pct`: absolute least-squares slope of the closes over `x = 0..n-1`
(`np.polyfit(x, closes, 1)[0]`), divided by the average price. -/
def _slope_pct (closes : List ℚ) (avg_p : ℚ) : ℚ :=
  let n := closes.length
  let xbar : ℚ := ((n : ℚ) - 1) / 2
  let ybar : ℚ := closes.sum / n
  let num := (((List.range n).map (fun i => (i : ℚ))).zip closes).foldl
    (fun acc p => acc + (p.1 - xbar) * (p.2 - ybar)) 0
  let den := (List.range n).foldl (fun acc i => acc + ((i : ℚ) - xbar) * ((i : ℚ) - xbar)) 0
  |num / den| / avg_p

/-- `np.sign`. -/
def qsign (x : ℚ) : ℤ := if 0 < x then 1 else if x < 0 then -1 else 0

/-- Consecutive differences `np.diff`. -/
def diffsOf (l : List ℚ) : List ℚ := (l.zip l.tail).map (fun p => p.2 - p.1)

/-- `_choppiness`: fraction of consecutive close-to-close deltas whose sign
differs from the previous delta. -/
def _choppiness (closes : List ℚ) : ℚ :=
  if closes.length < 3 then 0
  else
    let diffs := diffsOf closes
    let changes := ((diffs.zip diffs.tail).filter
      (fun p => qsign p.2 ≠ qsign p.1)).length
    (changes : ℚ) / ((diffs.length : ℚ) - 1)

/-- The `while period > 5 and n < period * 2 + 1: period = max(5, period - 2)`
loop of `_adx`, run with enough fuel (`p` iterations always suffice because the
period strictly decreases while the loop condition holds). -/
def adxReduce (fuel p n : ℕ) : ℕ :=
  match fuel with
  | 0 => p
  | fuel + 1 =>
    if 5 < p ∧ n < 2 * p + 1 then adxReduce fuel (max 5 (p - 2)) n else p

/-- Auto-reduced ADX period for a window of `n` candles. -/
def adxPeriod (p n : ℕ) : ℕ := adxReduce p p n

/-- Wilder smoothing from `_adx._smooth`:
`out[p] = arr[1:p+1].sum()`, `out[i] = out[i-1] - out[i-1]/p + arr[i]`. -/
def smoothF (arr : ℕ → ℚ) (p : ℕ) : ℕ → ℚ
  | 0 => 0
  | i + 1 =>
    if i + 1 < p then 0
    else if i + 1 = p then ((List.range p).map (fun k => arr (k + 1))).sum
    else smoothF arr p i - smoothF arr p i / p + arr (i + 1)

/-- The trailing ADX recursion:
`adx[start] = dx[period:start+1].mean()`,
`adx[i] = (adx[i-1] * (period-1) + dx[i]) / period`. -/
def adxRec (dx : ℕ → ℚ) (p start : ℕ) : ℕ → ℚ
  | 0 =>
    if 0 = start then ((List.range (start + 1 - p)).map (fun k => dx (p + k))).sum / (start + 1 - p : ℕ)
    else 0
  | i + 1 =>
    if i + 1 < start then 0
    else if i + 1 = start then
      ((List.range (start + 1 - p)).map (fun k => dx (p + k))).sum / (start + 1 - p : ℕ)
    else (adxRec dx p start i * ((p : ℚ) - 1) + dx (i + 1)) / p

/-- `detectors/accumulation.py::_adx` (period argument defaults to 14 at the
call site). Returns `none` exactly where the Python returns `None`. -/
def _adx (highs lows closes : List ℚ) (period0 : ℕ) : Option ℚ :=
  let n := closes.length
  let period := adxPeriod period0 n
  if n < period * 2 + 1 then none
  else
    let h := fun i => highs.getD i 0
    let l := fun i => lows.getD i 0
    let c := fun i => closes.getD i 0
    let tr := fun i => if i = 0 then 0 else
      max (h i - l i) (max |h i - c (i - 1)| |l i - c (i - 1)|)
    let plus_dm := fun i => if i = 0 then 0 else
      let up := h i - h (i - 1)
      let down := l (i - 1) - l i
      if up > down ∧ up > 0 then up else 0
    let minus_dm := fun i => if i = 0 then 0 else
      let up := h i - h (i - 1)
      let down := l (i - 1) - l i
      if down > up ∧ down > 0 then down else 0
    let atr := smoothF tr period
    let pDM := smoothF plus_dm period
    let mDM := smoothF minus_dm period
    let pDI := fun i => if atr i > 0 then 100 * pDM i / atr i else 0
    let mDI := fun i => if atr i > 0 then 100 * mDM i / atr i else 0
    let dx := fun i => if pDI i + mDI i > 0 then 100 * |pDI i - mDI i| / (pDI i + mDI i) else 0
    let start := 2 * period
    if n ≤ start then none
    else some (adxRec dx period start (n - 1))

/-- Keyword parameters of `accumulation.detect`, with the source defaults.
`none` for a range override means the Python `None` default. -/
structure AccumParams where
  lookback : ℕ := 40
  min_candles : ℕ := 20
  adx_threshold : ℚ := 25
  threshold_pct : ℚ := 3 / 1000
  max_range_pct : Option ℚ := none
  asian_range_pct : Option ℚ := none
  london_range_pct : Option ℚ := none
  new_york_range_pct : Option ℚ := none
deriving DecidableEq

/-- Session-resolved `effective_range_pct`. -/
def effectiveRange (p : AccumParams) (session : String) : Option ℚ :=
  let sr :=
    if session = "asian" then p.asian_range_pct
    else if session = "london" then p.london_range_pct
    else if session = "new_york" then p.new_york_range_pct
    else none
  match sr with
  | some r => some r
  | none => p.max_range_pct

/-- A candidate zone dict as appended to `found_candidates` /
`potential_candidates` (the `_window_start_idx` bookkeeping key is dropped
because the code pops it before returning).  `endTs` is the `"end"` key. -/
structure AccumCand where
  session : String
  start : ℤ
  endTs : ℤ
  top : ℚ
  bottom : ℚ
  is_active : Bool
  range_pct : ℚ
  slope : ℚ
  adx : Option ℚ
  avg_body : ℚ
  status : String
deriving DecidableEq

/-- The returned zone dict: a candidate plus the keys added on the
active/confirmed paths.  Keys absent from the dict are `none`. -/
structure AccumZone extends AccumCand where
  breakout_dir : Option String := none
  breakout_body : Option ℚ := none
  impulse_ratio : Option ℚ := none
  breakout_candle : Option Candle := none
  secondary_zone : Option AccumCand := none
deriving DecidableEq

/-- Result of `accumulation.detect`: `pynone` is Python `None` (insufficient
data, out of session, or caught exception); `weekend` / `looking` are the
sentinel dicts; `zone` is a returned zone dict. -/
inductive AccumResult where
  | pynone
  | weekend
  | looking
  | zone (z : AccumZone)
deriving DecidableEq

/-- `df.iloc[len(df) - 2]`: the last fully closed (breakout) candle. -/
def breakoutCandle (df : List Candle) : Candle := df.getD (df.length - 2) default

/-- The ADX rejection test from the scan loop:
`adx_val is not None and adx_val > adx_threshold`. -/
def adxRejects (a : Option ℚ) (thr : ℚ) : Bool :=
  match a with
  | some v => decide (v > thr)
  | none => false

/-- One iteration of the window-size scan loop of `detect`: returns the
choppiness together with the candidate zone, or `none` where the Python
`continue`s.  `w` is `window_size`. -/
def windowCand (p : AccumParams) (effRange : Option ℚ) (session : String)
    (df : List Candle) (w : ℕ) : Option (ℚ × AccumCand) :=
  let lastAccum : ℤ := (df.length : ℤ) - 3
  let scanStart : ℤ := max 0 ((df.length : ℤ) - p.lookback)
  let slope_limit : ℚ := p.threshold_pct * (1 / 10) / w
  let i : ℤ := lastAccum - w + 1
  if i < 0 ∨ i < scanStart then none
  else
    let window := (df.drop i.toNat).take w
    let closes := window.map Candle.Close
    if closes.length < w then none
    else
      let avg_p := listMean closes
      if avg_p = 0 then none
      else
        let h_max := listMax (window.map bodyHigh)
        let l_min := listMin (window.map bodyLow)
        let range_pct := (h_max - l_min) / avg_p
        if (match effRange with | some r => decide (range_pct > r) | none => false) then none
        else
          let slope := _slope_pct closes avg_p
          if slope ≥ slope_limit then none
          else
            let adx_val := _adx (window.map Candle.High) (window.map Candle.Low) closes 14
            if adxRejects adx_val p.adx_threshold then none
            else
              let chop := _choppiness closes
              let bo := breakoutCandle df
              let bodies := window.map (fun cd => |cd.Close - cd.Open|)
              let avg_body := if bodies.length > 0 then listMean bodies else 0
              some (chop,
                { session := session
                  start := (df.getD i.toNat default).time
                  endTs := (df.getD (i.toNat + w - 1) default).time
                  top := h_max
                  bottom := l_min
                  is_active := decide (bodyLow bo ≥ l_min ∧ bodyHigh bo ≤ h_max)
                  range_pct := roundTo range_pct 6
                  slope := roundTo slope 8
                  adx := adx_val.map (fun a => roundTo a 2)
                  avg_body := roundTo avg_body 6
                  status := "" })

/-- `range(min_candles, lookback + 1)`. -/
def windowSizes (p : AccumParams) : List ℕ :=
  List.range' p.min_candles (p.lookback + 1 - p.min_candles)

/-- All `(choppiness, candidate)` pairs the scan loop produces, in window-size
order. -/
def candidatePairs (p : AccumParams) (effRange : Option ℚ) (session : String)
    (df : List Candle) : List (ℚ × AccumCand) :=
  (windowSizes p).filterMap (windowCand p effRange session df)

/-- `found_candidates`: choppiness `≥ 0.44`, status set to `"found"`. -/
def found_candidates (p : AccumParams) (effRange : Option ℚ) (session : String)
    (df : List Candle) : List AccumCand :=
  ((candidatePairs p effRange session df).filter
    (fun zc => decide (zc.1 ≥ 44 / 100))).map
    (fun zc => { zc.2 with status := "found" })

/-- `potential_candidates`: `0.36 ≤ choppiness < 0.44`, status `"potential"`. -/
def potential_candidates (p : AccumParams) (effRange : Option ℚ) (session : String)
    (df : List Candle) : List AccumCand :=
  ((candidatePairs p effRange session df).filter
    (fun zc => !decide (zc.1 ≥ 44 / 100) && decide (zc.1 ≥ 36 / 100))).map
    (fun zc => { zc.2 with status := "potential" })

/-- The low-ADX preference used by `_rank`:
`z["adx"] is not None and z["adx"] < 10`. -/
def lowAdx (z : AccumCand) : Bool :=
  match z.adx with
  | some a => decide (a < 10)
  | none => false

/-- Sort key of both `sorted` calls in `_rank` (ascending slope). -/
def slopeLE (a b : AccumCand) : Prop := a.slope ≤ b.slope

instance : DecidableRel slopeLE := fun a b => inferInstanceAs (Decidable (a.slope ≤ b.slope))

instance : IsTotal AccumCand slopeLE := ⟨fun a b => le_total a.slope b.slope⟩

instance : IsTrans AccumCand slopeLE := ⟨fun _ _ _ h h' => le_trans h h'⟩

/-- `accumulation.detect._rank`: low-ADX candidates first, each group stably
sorted by ascending slope (Python's `sorted` is stable, as is
`List.insertionSort`). -/
def _rank (cands : List AccumCand) : List AccumCand :=
  List.insertionSort slopeLE (cands.filter lowAdx) ++
    List.insertionSort slopeLE (cands.filter (fun z => !lowAdx z))

/-- `ranked_all = _rank(found_candidates) + _rank(potential_candidates)`. -/
def rankedAll (p : AccumParams) (session : String) (df : List Candle) :
    List AccumCand :=
  let effRange := effectiveRange p session
  _rank (found_candidates p effRange session df) ++
    _rank (potential_candidates p effRange session df)

/-- Rounds the breakout candle's OHLC to 5 decimals as the confirmed branch
does when it builds `candidate["breakout_candle"]`. -/
def roundCandle5 (cd : Candle) : Candle :=
  { cd with
    Open := roundTo cd.Open 5
    High := roundTo cd.High 5
    Low := roundTo cd.Low 5
    Close := roundTo cd.Close 5 }

/-- The tail of `detect` after ranking: classify the top-ranked candidate
against the breakout candle (active / confirmed / looking). -/
def finalize (bo : Candle) (c : AccumCand) (sec : Option AccumCand) : AccumResult :=
  let last_body_high := bodyHigh bo
  let last_body_low := bodyLow bo
  let bo_body_size := |bo.Close - bo.Open|
  if c.is_active then
    .zone { toAccumCand := { c with status := "active" }, secondary_zone := sec }
  else
    let broke_up := decide (last_body_high > c.top)
    let broke_down := decide (last_body_low < c.bottom)
    if !broke_up && !broke_down then
      .zone { toAccumCand := { c with is_active := true, status := "active" },
              secondary_zone := sec }
    else if ¬ bo_body_size > c.avg_body then .looking
    else
      .zone { toAccumCand := { c with is_active := false, status := "confirmed" }
              breakout_dir := some (if broke_up then "up" else "down")
              breakout_body := some (roundTo bo_body_size 6)
              impulse_ratio :=
                if c.avg_body > 0 then some (roundTo (bo_body_size / c.avg_body) 2) else none
              breakout_candle := some (roundCandle5 bo)
              secondary_zone := sec }

/-- `detectors/accumulation.py::detect`.  The DataFrame cleanup
(`MultiIndex` flattening, `to_numeric`, `dropna`) is the identity on the
clean candle lists considered here. -/
def detect (p : AccumParams) (now : Clock) (df : List Candle) : AccumResult :=
  if is_weekend_halt now then .weekend
  else if df.length < p.min_candles + 4 then .pynone
  else
    match get_current_session now with
    | none => .pynone
    | some session =>
      match rankedAll p session df with
      | [] => .looking
      | c :: rest => finalize (breakoutCandle df) c rest.head?

end Accumulation

namespace Fvg

/-- The FVG zone dict built by `_check_fvg` (the `gap_check` entry is pure
debug string formatting and carries no further data, so it is omitted). -/
structure FvgZone where
  fvg_type : String
  top : ℚ
  bottom : ℚ
  gap_pct : ℚ
  time : ℤ
  candle_n : Candle
  candle_nm1_high : ℚ
  candle_nm1_low : ℚ
  candle_nm1_time : ℤ
  candle_np1_high : ℚ
  candle_np1_low : ℚ
  candle_np1_time : ℤ
deriving DecidableEq

/-- `detectors/fvg.py::_check_fvg`. -/
def _check_fvg (df : List Candle) (candle_n_idx : ℕ)
    (min_gap_pct impulse_body_pct : ℚ) : Option FvgZone :=
  let n := df.length
  if candle_n_idx < 1 ∨ candle_n_idx + 1 ≥ n then none
  else
    let c_prev := df.getD (candle_n_idx - 1) default
    let c_now := df.getD candle_n_idx default
    let c_next := df.getD (candle_n_idx + 1) default
    let avg_p := (c_now.High + c_now.Low) / 2
    if avg_p = 0 then none
    else
      let raw_bullish := decide (c_next.Low > c_prev.High)
      let raw_bearish := decide (c_next.High < c_prev.Low)
      if !raw_bullish && !raw_bearish then none
      else
        let gap_size := if raw_bullish then c_next.Low - c_prev.High else c_prev.Low - c_next.High
        let gap_top := if raw_bullish then c_next.Low else c_prev.Low
        let gap_bottom := if raw_bullish then c_prev.High else c_next.High
        let gap_pct := gap_size / avg_p
        if gap_pct < min_gap_pct then none
        else
          let is_bull_candle := decide (c_now.Close > c_now.Open)
          let is_bear_candle := decide (c_now.Close < c_now.Open)
          if raw_bullish ∧ ¬ is_bull_candle then none
          else if ¬ raw_bullish ∧ ¬ is_bear_candle then none
          else
            let candle_range := c_now.High - c_now.Low
            if candle_range > 0 ∧ |c_now.Close - c_now.Open| / candle_range < impulse_body_pct
            then none
            else
              some
                { fvg_type := if raw_bullish then "bullish" else "bearish"
                  top := roundTo gap_top 6
                  bottom := roundTo gap_bottom 6
                  gap_pct := roundTo gap_pct 8
                  time := c_now.time
                  candle_n := c_now
                  candle_nm1_high := c_prev.High
                  candle_nm1_low := c_prev.Low
                  candle_nm1_time := c_prev.time
                  candle_np1_high := c_next.High
                  candle_np1_low := c_next.Low
                  candle_np1_time := c_next.time }

/-- Result of `fvg.detect` (`total` is a Python int and can be negative on
degenerate inputs, hence ℤ). -/
structure FvgResult where
  fvgs : List FvgZone
  total : ℤ
  found : ℕ
  bullish : ℕ
  bearish : ℕ
deriving DecidableEq

/-- `detectors/fvg.py::detect`: scan `i` from `scan_end` down to
`scan_start + 1`. -/
def detect (df : List Candle) (lookback : ℕ := 80) (min_gap_pct : ℚ := 1 / 10000)
    (impulse_body_pct : ℚ := 60 / 100) : FvgResult :=
  let scan_end : ℤ := (df.length : ℤ) - 2
  let scan_start : ℤ := max 1 (scan_end - lookback)
  let m : ℕ := (scan_end - scan_start).toNat
  let idxs : List ℤ := (List.range m).map (fun k => scan_end - k)
  let fvgs := idxs.filterMap (fun i => _check_fvg df i.toNat min_gap_pct impulse_body_pct)
  { fvgs := fvgs
    total := scan_end - scan_start
    found := fvgs.length
    bullish := (fvgs.filter (fun f => f.fvg_type = "bullish")).length
    bearish := (fvgs.filter (fun f => f.fvg_type = "bearish")).length }

end Fvg

namespace SupplyDemand

/-- Keyword parameters of `supply_demand.detect`, source defaults. -/
structure SDParams where
  impulse_multiplier : ℚ := 18 / 10
  wick_ratio : ℚ := 6 / 10
  max_zones : ℕ := 5
  max_age_days : ℕ := 3
  valid_sessions : List String := ["asian", "london", "new_york"]
deriving DecidableEq

/-- UTC hour of a unix timestamp (`datetime.fromtimestamp(ts, tz=utc).hour`;
Python `//` and `%` are floor division and nonnegative remainder). -/
def hourOfTs (ts : ℤ) : ℤ := (Int.fdiv ts 3600) % 24

/-- `_candle_session_or_pre`: session containing the hour, widened to one
hour before open, probed in the dict order asian → london → new_york. -/
def _candle_session_or_pre (ts : ℤ) : Option String :=
  let hour := hourOfTs ts
  if 0 ≤ hour ∧ hour < 7 then some "asian"
  else if 7 ≤ hour ∧ hour < 12 then some "london"
  else if 13 ≤ hour ∧ hour < 19 then some "new_york"
  else none

/-- `_in_session` (the configured `valid_sessions` hold session names only, so
an out-of-session `None` is never a member). -/
def _in_session (ts : ℤ) (valid : List String) : Bool :=
  match _candle_session_or_pre ts with
  | some s => valid.contains s
  | none => false

/-- `_is_indecision`. -/
def _is_indecision (o h l c : ℚ) (min_wick_ratio : ℚ) : Bool :=
  let body := |c - o|
  let total_range := h - l
  if total_range = 0 then false
  else decide ((total_range - body) / total_range ≥ min_wick_ratio)

/-- A supply/demand zone dict.  `endTs` is the `"end"` key. -/
structure SDZone where
  type : String
  status : String
  session : Option String
  is_active : Bool
  start : ℤ
  endTs : ℤ
  top : ℚ
  bottom : ℚ
deriving DecidableEq

/-- The body of one scan-loop iteration of `supply_demand.detect` at
indecision index `i` (everything after the age cutoff test): `none` where the
Python `continue`s, `some zone` where a zone is appended. -/
def sdCandidate (df : List Candle) (p : SDParams) (look_for : String)
    (avg_body : ℚ) (i : ℕ) : Option SDZone :=
  let cd := df.getD i default
  let candle_ts := cd.time
  if ¬ _in_session candle_ts p.valid_sessions then none
  else if ¬ _is_indecision cd.Open cd.High cd.Low cd.Close p.wick_ratio then none
  else
    let nxt := df.getD (i + 1) default
    let impulse_body := |nxt.Close - nxt.Open|
    if impulse_body < avg_body * p.impulse_multiplier then none
    else
      let impulse_range := nxt.High - nxt.Low
      if impulse_range > 0 ∧ impulse_body / impulse_range < 60 / 100 then none
      else
        let zone_type := if nxt.Close > nxt.Open then "demand" else "supply"
        if zone_type ≠ look_for then none
        else
          let lastClosed := df.getD (df.length - 2) default
          if zone_type = "demand" ∧ lastClosed.Low ≤ cd.High then none
          else if ¬ zone_type = "demand" ∧ lastClosed.High ≥ cd.Low then none
          else
            some
              { type := zone_type
                status := "active"
                session := _candle_session_or_pre candle_ts
                is_active := true
                start := candle_ts
                endTs := (df.getD (df.length - 1) default).time
                top := cd.High
                bottom := cd.Low }

/-- The backward scan `for i in range(len(df) - 3, 0, -1)` with the age-cutoff
`break` and the `max_zones` `break`; the fuel argument is the current index. -/
def sdLoop (df : List Candle) (p : SDParams) (look_for : String) (avg_body : ℚ)
    (cutoff : ℚ) : ℕ → List SDZone → List SDZone
  | 0, acc => acc
  | i + 1, acc =>
    if ((df.getD (i + 1) default).time : ℚ) < cutoff then acc
    else
      match sdCandidate df p look_for avg_body (i + 1) with
      | none => sdLoop df p look_for avg_body cutoff i acc
      | some z =>
        let acc2 := acc ++ [z]
        if acc2.length ≥ p.max_zones then acc2
        else sdLoop df p look_for avg_body cutoff i acc2

/-- Result of `supply_demand.detect`; the bias dict is reduced to its
`"bias"` string, the only field the detect logic reads. -/
structure SDResult where
  bias : String
  zones : List SDZone
deriving DecidableEq

/-- `detectors/supply_demand.py::detect`.  The daily/weekly `bias` is fetched
from the network (`_get_bias`) in the source and is passed here already
resolved; `now_ts` stands for `datetime.now(timezone.utc).timestamp()`. -/
def detect (df : List Candle) (bias : String) (p : SDParams) (now_ts : ℚ) : SDResult :=
  if bias = "misaligned" then { bias := bias, zones := [] }
  else
    let look_for := if bias = "bullish" then "demand" else "supply"
    if df.length < 10 then { bias := bias, zones := [] }
    else
      let bodies := df.map (fun cd => |cd.Close - cd.Open|)
      let avg_body := listMean bodies
      let cutoff := now_ts - p.max_age_days * 86400
      { bias := bias
        zones := sdLoop df p look_for avg_body cutoff (df.length - 3) [] }

end SupplyDemand

namespace AlertLifecycle

/-- The dict fields the accumulation branch of `PairServer._process_alerts`
reads from a detector result or a stored zone: `"status"`, `"is_active"`, and
`"start"` (sentinel dicts carry `is_active = false` and their `start` is never
read). -/
structure PyView where
  status : String
  is_active : Bool
  start : ℤ
deriving DecidableEq

/-- The per-instrument state the branch mutates: `last_active_zone["accumulation"]`
and the persisted `last_alerted["accumulation"]` entry. -/
structure AccumAlertState where
  last_active_zone : Option PyView
  last_alerted : Option ℤ
deriving DecidableEq

/-- The 4-hour prune of the persisted entry at the top of the branch. -/
def pruneAlerted (now : ℤ) (la : Option ℤ) : Option ℤ :=
  match la with
  | some v => if v < now - 4 * 3600 then none else some v
  | none => none

/-- One cycle of the accumulation branch of `_process_alerts`: returns the new
state and the list of notification requests dispatched this cycle
(`_send_discord_alert` arguments). `now` is `int(time.time())`. -/
def processAccum (now : ℤ) (st : AccumAlertState) (result : Option PyView) :
    AccumAlertState × List PyView :=
  let la := pruneAlerted now st.last_alerted
  let prev := st.last_active_zone
  let isActiveFound :=
    match result with
    | some z => z.is_active && z.status == "found"
    | none => false
  let prevStatus := prev.map PyView.status
  if isActiveFound then
    match result with
    | some z =>
      if z.start ≠ la.getD 0 then (⟨some z, la⟩, []) else (⟨prev, la⟩, [])
    | none => (⟨prev, la⟩, [])
  else if prevStatus = some "found" ∧
      (match result with
       | none => true
       | some z => !z.is_active || z.status == "looking") = true then
    match prev with
    | some pz =>
      if pz.start ≠ la.getD 0 then
        let cz := { pz with status := "confirmed" }
        (⟨some cz, some pz.start⟩, [cz])
      else (⟨prev, la⟩, [])
    | none => (⟨prev, la⟩, [])
  else if prevStatus = some "confirmed" then (⟨none, la⟩, [])
  else (⟨prev, la⟩, [])

end AlertLifecycle

/-! ### Concrete fixtures used to evaluate the embeddings -/

/-- Candle with the given open/close and a 0.02 wick on each side. -/
def mkCandle (t : ℤ) (o c : ℚ) : Candle :=
  { time := t, Open := o, Close := c, High := max o c + 2/100, Low := min o c - 2/100 }

/-- Small accumulation configuration: scan windows of 5 to 8 candles. -/
def pSmall : Accumulation.AccumParams := { lookback := 8, min_candles := 5 }

/-- Monday 02:00 UTC — inside the Asian session. -/
def clockAsian : Clock := ⟨0, 2⟩

/-- Ten candles ending in a still-forming candle; indices 3–7 oscillate
between 100 and 100.1 and the breakout candle (index 8) keeps its body inside
that box. -/
def dfActive : List Candle :=
  [ mkCandle 0 100 (1001/10), mkCandle 60 (1001/10) 100, mkCandle 120 100 (1002/10),
    mkCandle 180 (1001/10) 100, mkCandle 240 100 (1001/10), mkCandle 300 (1001/10) 100,
    mkCandle 360 100 (1001/10), mkCandle 420 (1001/10) 100,
    mkCandle 480 (10005/100) (10006/100), mkCandle 540 (10006/100) (10007/100) ]

/-- Same as `dfActive` but the breakout candle closes impulsively above the
box (body 0.3 versus window average body 0.1). -/
def dfBreakout : List Candle :=
  [ mkCandle 0 100 (1001/10), mkCandle 60 (1001/10) 100, mkCandle 120 100 (1002/10),
    mkCandle 180 (1001/10) 100, mkCandle 240 100 (1001/10), mkCandle 300 (1001/10) 100,
    mkCandle 360 100 (1001/10), mkCandle 420 (1001/10) 100,
    mkCandle 480 (1002/10) (1005/10), mkCandle 540 (10006/100) (10007/100) ]

/-- Ten steadily rising candles — every scanned window fails the slope test. -/
def dfRising : List Candle :=
  (List.range 10).map (fun i => mkCandle (60 * i) (100 + i - 1/10) (100 + i))

/-- Too few candles for `pSmall` (8 < min_candles + 4 = 9). -/
def dfShort : List Candle := dfActive.take 8

/-- The single candidate the scan produces on `dfActive` / `dfBreakout`:
the 5-candle window at indices 3–7. -/
def candFound : Accumulation.AccumCand :=
  { session := "asian", start := 180, endTs := 420, top := 1001/10, bottom := 100,
    is_active := true, range_pct := 1/1000, slope := 0, adx := none,
    avg_body := 1/10, status := "found" }

/-- Spec scenario D: gap 100.000 → 100.005 around a 100-priced impulse
candle; `gap_pct = 0.00005`, below the default threshold. -/
def dfGapD : List Candle :=
  [ { time := 0,   Open := 9995/100,   High := 100,        Low := 999/10,     Close := 9998/100 },
    { time := 60,  Open := 99997/1000, High := 100004/1000, Low := 99996/1000, Close := 100003/1000 },
    { time := 120, Open := 10001/100,  High := 1001/10,    Low := 100005/1000, Close := 10009/100 } ]

/-- A zero-range candle N−1 (all four prices 100) followed by a bullish
impulse and a gapping candle N+1: `_check_fvg` accepts this triple. -/
def dfZeroRangePrev : List Candle :=
  [ { time := 0,   Open := 100,       High := 100,      Low := 100,      Close := 100 },
    { time := 60,  Open := 100,       High := 1006/10,  Low := 999/10,   Close := 1005/10 },
    { time := 120, Open := 10025/100, High := 1004/10,  Low := 1002/10,  Close := 10035/100 } ]

/-- Twelve in-session (02:00 UTC) candles: an indecision candle at index 5
(`100.00/100.30/99.70/100.05`) followed by a bullish impulse at index 6
(body 0.5), with price then holding above the zone. -/
def dfSD : List Candle :=
  [ mkCandle 7200 100 (1001/10), mkCandle 7260 100 (1001/10), mkCandle 7320 100 (1001/10),
    mkCandle 7380 100 (1001/10), mkCandle 7440 100 (1001/10),
    { time := 7500, Open := 100, High := 1003/10, Low := 997/10, Close := 10005/100 },
    { time := 7560, Open := 10005/100, High := 1006/10, Low := 100, Close := 10055/100 },
    mkCandle 7620 (1005/10) (1006/10), mkCandle 7680 (1005/10) (1006/10),
    mkCandle 7740 (1005/10) (1006/10), mkCandle 7800 (1005/10) (1006/10),
    mkCandle 7860 (1005/10) (1006/10) ]

/-- A previously "found" accumulation zone as stored in `last_active_zone`. -/
def pzFound : AlertLifecycle.PyView := { status := "found", is_active := true, start := 500 }

/-- Three candles whose impulse candle has price zero (degenerate input). -/
def dfZeroPrice : List Candle :=
  [ { time := 0, Open := 0, High := 0, Low := 0, Close := 0 },
    { time := 60, Open := 0, High := 0, Low := 0, Close := 0 },
    { time := 120, Open := 0, High := 0, Low := 0, Close := 0 } ]

namespace Accumulation

/-- Ranking tier (claim C4): `"found"` candidates rank ahead of the rest. -/
def tierKey (z : AccumCand) : ℕ := if z.status = "found" then 0 else 1

/-- ADX preference group inside a tier: low-ADX (`adx` present and `< 10`)
candidates come first. -/
def groupKey (z : AccumCand) : ℕ := if lowAdx z then 0 else 1

/-- The ranking order realised by `ranked_all`: by tier, then ADX group, then
ascending (rounded) slope. -/
def rankLE (a b : AccumCand) : Prop :=
  tierKey a < tierKey b ∨ (tierKey a = tierKey b ∧
    (groupKey a < groupKey b ∨ (groupKey a = groupKey b ∧ a.slope ≤ b.slope)))

end Accumulation

/-! ### Helper lemmas -/

theorem tenPow_pos (d : ℕ) : 0 < tenPow d := by
  induction d with
  | zero => norm_num [tenPow]
  | succ n ih => rw [tenPow]; positivity

theorem le_roundHalfEven (x : ℚ) : ⌊x⌋ ≤ roundHalfEven x := by
  simp only [roundHalfEven]
  split_ifs <;> omega

theorem roundHalfEven_le (x : ℚ) : roundHalfEven x ≤ ⌊x⌋ + 1 := by
  simp only [roundHalfEven]
  split_ifs <;> omega

theorem roundHalfEven_mono {x y : ℚ} (h : x ≤ y) : roundHalfEven x ≤ roundHalfEven y := by
  rcases lt_or_eq_of_le (Int.floor_le_floor h) with hf | hf
  · calc roundHalfEven x ≤ ⌊x⌋ + 1 := roundHalfEven_le x
      _ ≤ ⌊y⌋ := by omega
      _ ≤ roundHalfEven y := le_roundHalfEven y
  · simp only [roundHalfEven]
    rw [← hf]
    have hxy : x - (⌊x⌋ : ℚ) ≤ y - (⌊x⌋ : ℚ) := by linarith
    split_ifs <;> first | omega | linarith

theorem roundTo_mono {x y : ℚ} (d : ℕ) (h : x ≤ y) : roundTo x d ≤ roundTo y d := by
  unfold roundTo
  have hp := tenPow_pos d
  have h1 : x * tenPow d ≤ y * tenPow d := by
    exact mul_le_mul_of_nonneg_right h (le_of_lt hp)
  have h2 := roundHalfEven_mono h1
  exact (div_le_div_iff_of_pos_right hp).mpr (by exact_mod_cast h2)

theorem le_foldl_max (l : List ℚ) (a : ℚ) : a ≤ l.foldl max a := by
  induction l generalizing a with
  | nil => exact le_refl a
  | cons b t ih => exact le_trans (le_max_left a b) (ih (max a b))

theorem mem_le_foldl_max : ∀ (l : List ℚ) (a x : ℚ), x ∈ l → x ≤ l.foldl max a
  | b :: t, a, x, hx => by
    rcases List.mem_cons.mp hx with h | h
    · subst h
      exact le_trans (le_max_right a x) (le_foldl_max t (max a x))
    · exact mem_le_foldl_max t (max a b) x h

theorem le_listMax {l : List ℚ} {x : ℚ} (hx : x ∈ l) : x ≤ listMax l := by
  cases l with
  | nil => cases hx
  | cons y ys =>
    rcases List.mem_cons.mp hx with h | h
    · subst h; exact le_foldl_max ys x
    · exact mem_le_foldl_max ys y x h

theorem foldl_min_le (l : List ℚ) (a : ℚ) : l.foldl min a ≤ a := by
  induction l generalizing a with
  | nil => exact le_refl a
  | cons b t ih => exact le_trans (ih (min a b)) (min_le_left a b)

theorem foldl_min_le_mem : ∀ (l : List ℚ) (a x : ℚ), x ∈ l → l.foldl min a ≤ x
  | b :: t, a, x, hx => by
    rcases List.mem_cons.mp hx with h | h
    · subst h
      exact le_trans (foldl_min_le t (min a x)) (min_le_right a x)
    · exact foldl_min_le_mem t (min a b) x h

theorem listMin_le {l : List ℚ} {x : ℚ} (hx : x ∈ l) : listMin l ≤ x := by
  cases l with
  | nil => cases hx
  | cons y ys =>
    rcases List.mem_cons.mp hx with h | h
    · subst h; exact foldl_min_le ys x
    · exact foldl_min_le_mem ys y x h

/-! ### Claim C3 — weekend gate (corrected) -/

/-- C3 (counterexample): Sunday 23:00 UTC lies inside the claimed closed
interval [Friday 23:00 UTC, Monday 01:00 UTC], yet `is_weekend_halt` is false
there and `detect` does not return the weekend sentinel (it falls through to
the out-of-session `None`). -/
theorem weekend_gate_counterexample :
    Accumulation.is_weekend_halt ⟨6, 23⟩ = false ∧
    Accumulation.detect pSmall ⟨6, 23⟩ dfRising = .pynone := by
  refine ⟨rfl, ?_⟩
  with_unfolding_all rfl

/-- C3 (amended): the weekend halt window implemented by the code is
Friday ≥ 23:00 UTC, all of Saturday, and Sunday before 22:00 UTC; for every
clock in that window `detect` returns the weekend sentinel regardless of the
candle data supplied. -/
theorem weekend_gate (now : Clock) (df : List Candle) (p : Accumulation.AccumParams)
    (h : (now.dow = 4 ∧ 23 ≤ now.hour) ∨ now.dow = 5 ∨ (now.dow = 6 ∧ now.hour < 22)) :
    Accumulation.detect p now df = .weekend := by
  have hw : Accumulation.is_weekend_halt now = true := by
    simp only [Accumulation.is_weekend_halt]
    rcases h with h | h | h <;> split_ifs <;> tauto
  simp [Accumulation.detect, hw]

/-- C3 witness: Saturday noon is halted, whatever the data. -/
theorem weekend_gate_witness :
    ((5 : ℕ) = 4 ∧ 23 ≤ 12 ∨ (5 : ℕ) = 5 ∨ (5 : ℕ) = 6 ∧ 12 < 22) ∧
    Accumulation.detect pSmall ⟨5, 12⟩ dfRising = .weekend :=
  ⟨Or.inr (Or.inl rfl), weekend_gate ⟨5, 12⟩ dfRising pSmall (Or.inr (Or.inl rfl))⟩

/-! ### Claim C5 — sentinel distinguishability (corrected) -/

/-- C5 (counterexample): "fewer than `min_candles + 4` candles" and "out of
session" do **not** yield distinct results — both return Python `None`
(`dfShort` has 8 < 9 candles at an in-session hour; `dfRising` has enough
candles but Monday 00:00 UTC is outside every session). -/
theorem sentinel_collapse_counterexample :
    Accumulation.detect pSmall clockAsian dfShort = .pynone ∧
    Accumulation.detect pSmall ⟨0, 0⟩ dfRising = .pynone := by
  constructor
  · with_unfolding_all rfl
  · with_unfolding_all rfl

/-- C5 (amended): weekend and looking are distinct sentinel values, distinct
from Python `None`; but insufficient data and out-of-session collapse to the
same `None` result, so only three of the four conditions are distinguishable. -/
theorem sentinel_distinguishability :
    Accumulation.detect pSmall clockAsian dfShort = .pynone ∧
    Accumulation.detect pSmall ⟨0, 0⟩ dfRising = .pynone ∧
    Accumulation.detect pSmall ⟨5, 12⟩ dfRising = .weekend ∧
    Accumulation.detect pSmall clockAsian dfRising = .looking ∧
    (Accumulation.AccumResult.weekend ≠ .looking ∧
     Accumulation.AccumResult.weekend ≠ .pynone ∧
     Accumulation.AccumResult.looking ≠ .pynone) := by
  refine ⟨?_, ?_, ?_, ?_, by decide, by decide, by decide⟩
  · with_unfolding_all rfl
  · with_unfolding_all rfl
  · with_unfolding_all rfl
  · with_unfolding_all rfl

/-! ### Claim C9 — FVG degenerate-input guard (corrected) -/

/-- C9 (counterexample): a triple whose candle N−1 has zero high-low range is
**not** rejected — `_check_fvg` returns a zone for it. -/
theorem fvg_zero_range_counterexample :
    (dfZeroRangePrev.getD 0 default).High = (dfZeroRangePrev.getD 0 default).Low ∧
    Fvg._check_fvg dfZeroRangePrev 1 (1/10000) (6/10) ≠ none := by
  constructor
  · rfl
  · with_unfolding_all decide

/-- C9 (amended): the only degenerate price guard in `_check_fvg` is the
impulse candle's midpoint `(high + low) / 2 = 0`, which always rejects; a
zero-range neighbour candle (N−1 or N+1) does not reject the triple. -/
theorem fvg_degenerate_guard :
    (∀ (df : List Candle) (i : ℕ) (mg ib : ℚ),
        (df.getD i default).High + (df.getD i default).Low = 0 →
        Fvg._check_fvg df i mg ib = none) ∧
    Fvg._check_fvg dfZeroRangePrev 1 (1/10000) (6/10) ≠ none := by
  constructor
  · intro df i mg ib h
    simp only [Fvg._check_fvg]
    split
    · rfl
    · rw [if_pos (by rw [h]; norm_num)]
  · with_unfolding_all decide

/-- C9 witness: the guard fires on an all-zero impulse candle. -/
theorem fvg_degenerate_guard_witness :
    (dfZeroPrice.getD 1 default).High + (dfZeroPrice.getD 1 default).Low = 0 ∧
    Fvg._check_fvg dfZeroPrice 1 (1/10000) (6/10) = none :=
  ⟨by with_unfolding_all rfl,
   fvg_degenerate_guard.1 dfZeroPrice 1 (1/10000) (6/10) (by with_unfolding_all rfl)⟩

/-! ### Claim C8 — FVG gap-size threshold (confirmed) -/

/-- C8: `_check_fvg` computes `gap_pct = gap_size / ((high[N] + low[N]) / 2)`
and rejects the triple whenever `gap_pct < min_gap_pct` — for a bullish raw
gap (`low[N+1] > high[N-1]`) and, when no bullish raw gap exists, for a
bearish one (`high[N+1] < low[N-1]`). -/
theorem fvg_gap_threshold (df : List Candle) (i : ℕ) (mg ib : ℚ)
    (h1 : 1 ≤ i) (h2 : i + 1 < df.length)
    (havg : ((df.getD i default).High + (df.getD i default).Low) / 2 ≠ 0)
    (hgap :
      ((df.getD (i+1) default).Low > (df.getD (i-1) default).High ∧
        ((df.getD (i+1) default).Low - (df.getD (i-1) default).High) /
          (((df.getD i default).High + (df.getD i default).Low) / 2) < mg) ∨
      (¬ (df.getD (i+1) default).Low > (df.getD (i-1) default).High ∧
        (df.getD (i+1) default).High < (df.getD (i-1) default).Low ∧
        ((df.getD (i-1) default).Low - (df.getD (i+1) default).High) /
          (((df.getD i default).High + (df.getD i default).Low) / 2) < mg)) :
    Fvg._check_fvg df i mg ib = none := by
  simp only [Fvg._check_fvg]
  rw [if_neg (by omega), if_neg havg]
  rcases hgap with ⟨hb, hlt⟩ | ⟨hnb, hb, hlt⟩ <;>
    split_ifs <;> first | rfl | (exfalso; simp_all; try linarith)

/-- C8 witness: spec scenario D — candle N−1 high 100.000, candle N+1 low
100.005, impulse candle priced at 100, so `gap_pct = 0.00005 < 0.0001` and the
triple is rejected. -/
theorem fvg_gap_threshold_witness :
    ((dfGapD.getD 2 default).Low - (dfGapD.getD 0 default).High) /
        (((dfGapD.getD 1 default).High + (dfGapD.getD 1 default).Low) / 2) = 5/100000 ∧
    Fvg._check_fvg dfGapD 1 (1/10000) (6/10) = none :=
  ⟨by with_unfolding_all rfl,
   fvg_gap_threshold dfGapD 1 (1/10000) (6/10) (by norm_num)
     (by with_unfolding_all decide)
     (by with_unfolding_all decide)
     (Or.inl ⟨by with_unfolding_all decide, by with_unfolding_all decide⟩)⟩

/-! ### Claim C1 — accumulation alert dedup (confirmed) -/

/-- C1: in the accumulation branch of `_process_alerts`, the found→confirmed
transition fires exactly one notification and persists `zone.start` into
`last_alerted`; and while `last_alerted["accumulation"]` still holds that
zone's start (surviving the 4-hour prune), replaying any cycle — in
particular the same found-to-confirmed transition — emits no further
notification and leaves the recorded start in place. -/
theorem accumulation_alert_dedup (now : ℤ) (st : AlertLifecycle.AccumAlertState)
    (pz : AlertLifecycle.PyView) (r : Option AlertLifecycle.PyView)
    (hprev : st.last_active_zone = some pz) (hfound : pz.status = "found")
    (htrig : r = none ∨ ∃ z, r = some z ∧ (z.is_active = false ∨ z.status = "looking")) :
    (pz.start ≠ (AlertLifecycle.pruneAlerted now st.last_alerted).getD 0 →
      AlertLifecycle.processAccum now st r =
        (⟨some { pz with status := "confirmed" }, some pz.start⟩,
         [{ pz with status := "confirmed" }])) ∧
    (∀ r2 : Option AlertLifecycle.PyView,
      AlertLifecycle.pruneAlerted now st.last_alerted = some pz.start →
      (AlertLifecycle.processAccum now st r2).2 = [] ∧
      (AlertLifecycle.processAccum now st r2).1.last_alerted = some pz.start) := by
  constructor
  · intro hne
    rcases htrig with h | ⟨z, hz, hza⟩
    · subst h
      simp [AlertLifecycle.processAccum, hprev, hfound, hne]
    · subst hz
      rcases hza with ha | hs
      · simp [AlertLifecycle.processAccum, hprev, hfound, ha, hne]
      · simp [AlertLifecycle.processAccum, hprev, hfound, hs, hne]
  · intro r2 hla
    have hgd : (AlertLifecycle.pruneAlerted now st.last_alerted).getD 0 = pz.start := by
      rw [hla]; rfl
    simp only [AlertLifecycle.processAccum, hprev, hla, hgd, Option.map_some]
    repeat' split
    all_goals simp_all

/-- C1 witness: a fresh "found" zone with start 500 fires once at `now = 1000`
(the record is young enough to survive the prune), and with the record in
place a replayed cycle emits nothing. -/
theorem accumulation_alert_dedup_witness :
    AlertLifecycle.processAccum 1000 ⟨some pzFound, none⟩ none =
      (⟨some { pzFound with status := "confirmed" }, some pzFound.start⟩,
       [{ pzFound with status := "confirmed" }]) ∧
    (AlertLifecycle.processAccum 1000 ⟨some pzFound, some 500⟩ none).2 = [] ∧
    (AlertLifecycle.processAccum 1000 ⟨some pzFound, some 500⟩ none).1.last_alerted = some 500 := by
  refine ⟨(accumulation_alert_dedup 1000 ⟨some pzFound, none⟩ pzFound none rfl rfl
      (Or.inl rfl)).1 (by decide), ?_, ?_⟩
  · exact ((accumulation_alert_dedup 1000 ⟨some pzFound, some 500⟩ pzFound none rfl rfl
      (Or.inl rfl)).2 none (by decide)).1
  · exact ((accumulation_alert_dedup 1000 ⟨some pzFound, some 500⟩ pzFound none rfl rfl
      (Or.inl rfl)).2 none (by decide)).2

/-! ### Accumulation structural lemmas (shared) -/

theorem getD_eq_of_lt {l : List Candle} {n : ℕ} (d : Candle) (h : n < l.length) :
    l.getD n d = l[n] := by
  rw [List.getD_eq_getElem?_getD, List.getElem?_eq_getElem h]
  rfl

theorem pairwise_time_le {df : List Candle}
    (hsort : df.Pairwise (fun a b => a.time < b.time))
    {a b : ℕ} (ha : a < df.length) (hb : b < df.length) (hab : a ≤ b) :
    df[a].time ≤ df[b].time := by
  rcases Nat.lt_or_ge a b with h | h
  · exact le_of_lt (List.pairwise_iff_getElem.mp hsort _ _ ha hb h)
  · have heq : a = b := by omega
    subst heq
    exact le_refl _

namespace Accumulation

theorem windowCand_inv {p : AccumParams} {eR : Option ℚ} {s : String} {df : List Candle}
    {w : ℕ} {ch : ℚ} {cand : AccumCand}
    (hp : windowCand p eR s df w = some (ch, cand)) :
    cand.is_active = decide (bodyLow (breakoutCandle df) ≥ cand.bottom ∧
      bodyHigh (breakoutCandle df) ≤ cand.top) ∧
    cand.bottom ≤ cand.top ∧
    (df.Pairwise (fun a b => a.time < b.time) → cand.start ≤ cand.endTs) := by
  simp only [windowCand] at hp
  split at hp
  · simp at hp
  · split at hp
    · simp at hp
    · split at hp
      · simp at hp
      · split at hp
        · simp at hp
        · split at hp
          · simp at hp
          · split at hp
            · simp at hp
            · rename_i hidx hlen havg hrange hslope hadx
              rw [Option.some.injEq, Prod.mk.injEq] at hp
              obtain ⟨hch, hcand⟩ := hp
              subst hcand
              -- abbreviations for the window
              set i : ℤ := (df.length : ℤ) - 3 - w + 1 with hi
              set win : List Candle := List.take w (List.drop i.toNat df) with hwin
              have hwne : win ≠ [] := by
                intro hnil
                apply havg
                rw [hnil]
                simp [listMean]
              have hwlen : win.length = min w (df.length - i.toNat) := by
                simp [hwin]
              have hw1 : 1 ≤ w := by
                rcases Nat.eq_zero_or_pos w with h0 | h1
                · exfalso
                  apply hwne
                  rw [hwin, h0]
                  simp
                · exact h1
              have hbounds : 0 ≤ i := by
                rcases not_or.mp hidx with ⟨h1, _⟩
                exact not_lt.mp h1
              have hlen2 : ¬ (List.map Candle.Close win).length < w := hlen
              have hwlenw : w ≤ win.length := by
                rw [List.length_map] at hlen2
                omega
              have hiw : i.toNat + w ≤ df.length := by
                have : win.length ≤ df.length - i.toNat := by
                  rw [hwlen]; omega
                omega
              refine ⟨rfl, ?_, ?_⟩
              · -- bottom ≤ top
                obtain ⟨c0, tl, hc⟩ := List.exists_cons_of_ne_nil hwne
                calc listMin (List.map bodyLow win) ≤ bodyLow c0 := by
                      apply listMin_le
                      rw [hc]
                      exact List.mem_map_of_mem bodyLow (List.mem_cons_self c0 tl)
                  _ ≤ bodyHigh c0 := min_le_max
                  _ ≤ listMax (List.map bodyHigh win) := by
                      apply le_listMax
                      rw [hc]
                      exact List.mem_map_of_mem bodyHigh (List.mem_cons_self c0 tl)
              · -- start ≤ end
                intro hsort
                simp only
                have ha : i.toNat < df.length := by omega
                have hb : i.toNat + w - 1 < df.length := by omega
                rw [getD_eq_of_lt default ha, getD_eq_of_lt default hb]
                exact pairwise_time_le hsort ha hb (by omega)

end Accumulation

namespace Accumulation

theorem mem_rank {l : List AccumCand} {c : AccumCand} (hc : c ∈ _rank l) : c ∈ l := by
  rcases List.mem_append.mp hc with h | h <;>
    exact (List.mem_filter.mp ((List.mem_insertionSort slopeLE).mp h)).1

theorem mem_found_candidates {p : AccumParams} {eR : Option ℚ} {s : String}
    {df : List Candle} {c : AccumCand} (hc : c ∈ found_candidates p eR s df) :
    ∃ w ch cand, windowCand p eR s df w = some (ch, cand) ∧
      c = { cand with status := "found" } := by
  simp only [found_candidates, List.mem_map, List.mem_filter] at hc
  obtain ⟨zc, ⟨hzc, hchop⟩, heq⟩ := hc
  simp only [candidatePairs, List.mem_filterMap] at hzc
  obtain ⟨w, hw, hwc⟩ := hzc
  exact ⟨w, zc.1, zc.2, hwc, heq.symm⟩

theorem mem_potential_candidates {p : AccumParams} {eR : Option ℚ} {s : String}
    {df : List Candle} {c : AccumCand} (hc : c ∈ potential_candidates p eR s df) :
    ∃ w ch cand, windowCand p eR s df w = some (ch, cand) ∧
      c = { cand with status := "potential" } := by
  simp only [potential_candidates, List.mem_map, List.mem_filter] at hc
  obtain ⟨zc, ⟨hzc, hchop⟩, heq⟩ := hc
  simp only [candidatePairs, List.mem_filterMap] at hzc
  obtain ⟨w, hw, hwc⟩ := hzc
  exact ⟨w, zc.1, zc.2, hwc, heq.symm⟩

theorem mem_rankedAll {p : AccumParams} {s : String} {df : List Candle} {c : AccumCand}
    (hc : c ∈ rankedAll p s df) :
    ∃ w ch cand st, windowCand p (effectiveRange p s) s df w = some (ch, cand) ∧
      c = { cand with status := st } := by
  rcases List.mem_append.mp hc with h | h
  · obtain ⟨w, ch, cand, hwc, heq⟩ := mem_found_candidates (mem_rank h)
    exact ⟨w, ch, cand, "found", hwc, heq⟩
  · obtain ⟨w, ch, cand, hwc, heq⟩ := mem_potential_candidates (mem_rank h)
    exact ⟨w, ch, cand, "potential", hwc, heq⟩

theorem rankedAll_isActive {p : AccumParams} {s : String} {df : List Candle} {c : AccumCand}
    (hc : c ∈ rankedAll p s df) :
    c.is_active = decide (bodyLow (breakoutCandle df) ≥ c.bottom ∧
      bodyHigh (breakoutCandle df) ≤ c.top) := by
  obtain ⟨w, ch, cand, st, hwc, heq⟩ := mem_rankedAll hc
  subst heq
  exact (windowCand_inv hwc).1

theorem rankedAll_shape {p : AccumParams} {s : String} {df : List Candle} {c : AccumCand}
    (hc : c ∈ rankedAll p s df) :
    c.bottom ≤ c.top ∧
    (df.Pairwise (fun a b => a.time < b.time) → c.start ≤ c.endTs) := by
  obtain ⟨w, ch, cand, st, hwc, heq⟩ := mem_rankedAll hc
  subst heq
  exact ⟨(windowCand_inv hwc).2.1, (windowCand_inv hwc).2.2⟩

theorem detect_eq_finalize {p : AccumParams} {now : Clock} {df : List Candle}
    {session : String} {c : AccumCand} {rest : List AccumCand}
    (hw : is_weekend_halt now = false) (hlen : p.min_candles + 4 ≤ df.length)
    (hs : get_current_session now = some session)
    (hr : rankedAll p session df = c :: rest) :
    detect p now df = finalize (breakoutCandle df) c rest.head? := by
  simp only [detect, hw, Bool.false_eq_true, if_false, hs, hr]
  rw [if_neg (Nat.not_lt.mpr hlen)]

end Accumulation


open Accumulation in
/-- C2. -/
theorem accumulation_breakout_classification
    (p : AccumParams) (now : Clock) (df : List Candle) (session : String)
    (c : AccumCand) (rest : List AccumCand)
    (hw : is_weekend_halt now = false)
    (hlen : p.min_candles + 4 ≤ df.length)
    (hs : get_current_session now = some session)
    (hr : rankedAll p session df = c :: rest) :
    (bodyLow (breakoutCandle df) ≥ c.bottom ∧ bodyHigh (breakoutCandle df) ≤ c.top →
      detect p now df =
        .zone { toAccumCand := { c with status := "active" }, secondary_zone := rest.head? }) ∧
    (¬ (bodyLow (breakoutCandle df) ≥ c.bottom ∧ bodyHigh (breakoutCandle df) ≤ c.top) →
      |(breakoutCandle df).Close - (breakoutCandle df).Open| > c.avg_body →
      detect p now df =
        .zone { toAccumCand := { c with is_active := false, status := "confirmed" },
                breakout_dir :=
                  some (if bodyHigh (breakoutCandle df) > c.top then "up" else "down"),
                breakout_body :=
                  some (roundTo |(breakoutCandle df).Close - (breakoutCandle df).Open| 6),
                impulse_ratio :=
                  if c.avg_body > 0 then
                    some (roundTo (|(breakoutCandle df).Close - (breakoutCandle df).Open| /
                      c.avg_body) 2)
                  else none,
                breakout_candle := some (roundCandle5 (breakoutCandle df)),
                secondary_zone := rest.head? }) ∧
    (¬ (bodyLow (breakoutCandle df) ≥ c.bottom ∧ bodyHigh (breakoutCandle df) ≤ c.top) →
      ¬ |(breakoutCandle df).Close - (breakoutCandle df).Open| > c.avg_body →
      detect p now df = .looking) := by
  have hc : c ∈ rankedAll p session df := by
    rw [hr]
    exact List.mem_cons_self c rest
  have hia := rankedAll_isActive hc
  rw [detect_eq_finalize hw hlen hs hr]
  refine ⟨?_, ?_, ?_⟩
  · intro hin
    have ht : c.is_active = true := by
      rw [hia]
      exact decide_eq_true hin
    simp only [finalize, ht, if_true]
  · intro hout himp
    have hf : c.is_active = false := by
      rw [hia]
      exact decide_eq_false hout
    have hbroke : bodyHigh (breakoutCandle df) > c.top ∨ bodyLow (breakoutCandle df) < c.bottom := by
      rcases not_and_or.mp hout with h | h
      · exact Or.inr (not_le.mp h)
      · exact Or.inl (not_le.mp h)
    simp only [finalize, hf, Bool.false_eq_true, if_false]
    rw [if_neg (by rcases hbroke with h | h <;> simp [h])]
    rw [if_neg (not_not_intro himp)]
    simp only [decide_eq_true_eq]
  · intro hout hnimp
    have hf : c.is_active = false := by
      rw [hia]
      exact decide_eq_false hout
    have hbroke : bodyHigh (breakoutCandle df) > c.top ∨ bodyLow (breakoutCandle df) < c.bottom := by
      rcases not_and_or.mp hout with h | h
      · exact Or.inr (not_le.mp h)
      · exact Or.inl (not_le.mp h)
    simp only [finalize, hf, Bool.false_eq_true, if_false]
    rw [if_neg (by rcases hbroke with h | h <;> simp [h])]
    rw [if_pos hnimp]

open Accumulation in
/-- C2 witness: the impulsive-breakout input `dfBreakout` lands in the
confirmed branch. -/
theorem accumulation_breakout_classification_witness :
    ¬ (bodyLow (breakoutCandle dfBreakout) ≥ ({ candFound with is_active := false } : AccumCand).bottom ∧
       bodyHigh (breakoutCandle dfBreakout) ≤ ({ candFound with is_active := false } : AccumCand).top) ∧
    |(breakoutCandle dfBreakout).Close - (breakoutCandle dfBreakout).Open| >
      ({ candFound with is_active := false } : AccumCand).avg_body ∧
    detect pSmall clockAsian dfBreakout =
      .zone { toAccumCand := { candFound with is_active := false, status := "confirmed" },
              breakout_dir := some "up", breakout_body := some (3/10),
              impulse_ratio := some 3,
              breakout_candle := some (mkCandle 480 (1002/10) (1005/10)),
              secondary_zone := none } := by
  refine ⟨by with_unfolding_all decide, by with_unfolding_all decide, ?_⟩
  have h := (accumulation_breakout_classification pSmall clockAsian dfBreakout "asian"
      { candFound with is_active := false } [] rfl (by decide) rfl
      (by with_unfolding_all rfl)).2.1
      (by with_unfolding_all decide) (by with_unfolding_all decide)
  rw [h]
  with_unfolding_all rfl

namespace Accumulation

theorem pairwise_rankLE_rank {l : List AccumCand} (t : ℕ) (ht : ∀ z ∈ l, tierKey z = t) :
    List.Pairwise rankLE (_rank l) := by
  unfold _rank
  apply List.pairwise_append.mpr
  refine ⟨?_, ?_, ?_⟩
  · have hs : List.Pairwise slopeLE (List.insertionSort slopeLE (l.filter lowAdx)) :=
      List.sorted_insertionSort slopeLE _
    apply List.Pairwise.imp_of_mem ?_ hs
    intro a b ha hb hab
    have ha' := List.mem_filter.mp ((List.mem_insertionSort slopeLE).mp ha)
    have hb' := List.mem_filter.mp ((List.mem_insertionSort slopeLE).mp hb)
    right
    refine ⟨by rw [ht a ha'.1, ht b hb'.1], Or.inr ⟨?_, hab⟩⟩
    simp [groupKey, ha'.2, hb'.2]
  · have hs : List.Pairwise slopeLE
        (List.insertionSort slopeLE (l.filter (fun z => !lowAdx z))) :=
      List.sorted_insertionSort slopeLE _
    apply List.Pairwise.imp_of_mem ?_ hs
    intro a b ha hb hab
    have ha' := List.mem_filter.mp ((List.mem_insertionSort slopeLE).mp ha)
    have hb' := List.mem_filter.mp ((List.mem_insertionSort slopeLE).mp hb)
    right
    refine ⟨by rw [ht a ha'.1, ht b hb'.1], Or.inr ⟨?_, hab⟩⟩
    have ha2 := ha'.2
    have hb2 := hb'.2
    simp only [Bool.not_eq_true'] at ha2 hb2
    simp [groupKey, ha2, hb2]
  · intro a ha b hb
    have ha' := List.mem_filter.mp ((List.mem_insertionSort slopeLE).mp ha)
    have hb' := List.mem_filter.mp ((List.mem_insertionSort slopeLE).mp hb)
    right
    refine ⟨by rw [ht a ha'.1, ht b hb'.1], Or.inl ?_⟩
    have hb2 := hb'.2
    simp only [Bool.not_eq_true'] at hb2
    simp [groupKey, ha'.2, hb2]

theorem rank_perm (l : List AccumCand) : (_rank l).Perm l := by
  unfold _rank
  exact (List.Perm.append (List.perm_insertionSort _ _) (List.perm_insertionSort _ _)).trans
    (List.filter_append_perm lowAdx l)

theorem found_status {p : AccumParams} {eR : Option ℚ} {s : String} {df : List Candle}
    {z : AccumCand} (hz : z ∈ found_candidates p eR s df) : z.status = "found" := by
  obtain ⟨w, ch, cand, hwc, heq⟩ := mem_found_candidates hz
  rw [heq]

theorem potential_status {p : AccumParams} {eR : Option ℚ} {s : String} {df : List Candle}
    {z : AccumCand} (hz : z ∈ potential_candidates p eR s df) : z.status = "potential" := by
  obtain ⟨w, ch, cand, hwc, heq⟩ := mem_potential_candidates hz
  rw [heq]

end Accumulation

/-! ### Claim C4 — candidate ranking (confirmed) -/

open Accumulation in
/-- C4: `ranked_all` is a permutation of the surviving found/potential
candidates that is sorted by the lexicographic key (tier: found before
potential, ADX < 10 group first within a tier, then ascending slope); and
when `detect` returns a zone it is built from the first element of this
ranking, with the second element (if any) exposed as `secondary_zone`. -/
theorem accumulation_ranking (p : AccumParams) (session : String) (df : List Candle) :
    (rankedAll p session df).Perm
      (found_candidates p (effectiveRange p session) session df ++
       potential_candidates p (effectiveRange p session) session df) ∧
    List.Pairwise rankLE (rankedAll p session df) ∧
    (∀ (now : Clock) (c : AccumCand) (rest : List AccumCand),
      is_weekend_halt now = false → p.min_candles + 4 ≤ df.length →
      get_current_session now = some session → rankedAll p session df = c :: rest →
      ∀ z, detect p now df = .zone z →
        z.top = c.top ∧ z.bottom = c.bottom ∧ z.start = c.start ∧ z.endTs = c.endTs ∧
        z.secondary_zone = rest.head?) := by
  refine ⟨?_, ?_, ?_⟩
  · exact List.Perm.append (rank_perm _) (rank_perm _)
  · apply List.pairwise_append.mpr
    refine ⟨?_, ?_, ?_⟩
    · exact pairwise_rankLE_rank 0 (fun z hz => by simp [tierKey, found_status hz])
    · exact pairwise_rankLE_rank 1 (fun z hz => by simp [tierKey, potential_status hz])
    · intro a ha b hb
      left
      have ha' : a.status = "found" := found_status ((rank_perm _).mem_iff.mp ha)
      have hb' : b.status = "potential" := potential_status ((rank_perm _).mem_iff.mp hb)
      simp [tierKey, ha', hb']
  · intro now c rest hw hlen hs hr z hz
    rw [detect_eq_finalize hw hlen hs hr] at hz
    simp only [finalize] at hz
    split at hz
    · injection hz with h
      subst h
      exact ⟨rfl, rfl, rfl, rfl, rfl⟩
    · split at hz
      · injection hz with h
        subst h
        exact ⟨rfl, rfl, rfl, rfl, rfl⟩
      · split at hz
        · cases hz
        · injection hz with h
          subst h
          exact ⟨rfl, rfl, rfl, rfl, rfl⟩

namespace SupplyDemand

theorem sdLoop_mem {df : List Candle} {p : SDParams} {lf : String} {ab cut : ℚ} :
    ∀ {i : ℕ} {acc : List SDZone} {z : SDZone}, z ∈ sdLoop df p lf ab cut i acc →
      z ∈ acc ∨ ∃ j, 1 ≤ j ∧ j ≤ i ∧ sdCandidate df p lf ab j = some z := by
  intro i
  induction i with
  | zero => exact fun hz => Or.inl hz
  | succ i ih =>
    intro acc z hz
    simp only [sdLoop] at hz
    split at hz
    · exact Or.inl hz
    · split at hz
      · rcases ih hz with h | ⟨j, h1, h2, h3⟩
        · exact Or.inl h
        · exact Or.inr ⟨j, h1, by omega, h3⟩
      · rename_i z' heq
        split at hz
        · rcases List.mem_append.mp hz with h | h
          · exact Or.inl h
          · rw [List.mem_singleton] at h
            subst h
            exact Or.inr ⟨i + 1, by omega, le_refl _, heq⟩
        · rcases ih hz with h | ⟨j, h1, h2, h3⟩
          · rcases List.mem_append.mp h with h' | h'
            · exact Or.inl h'
            · rw [List.mem_singleton] at h'
              subst h'
              exact Or.inr ⟨i + 1, by omega, le_refl _, heq⟩
          · exact Or.inr ⟨j, h1, by omega, h3⟩

theorem sdCandidate_inv {df : List Candle} {p : SDParams} {lf : String} {ab : ℚ}
    {j : ℕ} {z : SDZone} (h : sdCandidate df p lf ab j = some z) :
    z.type = lf ∧
    z.top = (df.getD j default).High ∧ z.bottom = (df.getD j default).Low ∧
    z.start = (df.getD j default).time ∧
    z.endTs = (df.getD (df.length - 1) default).time ∧
    (z.type = "demand" → ¬ (df.getD (df.length - 2) default).Low ≤ z.top) ∧
    (z.type = "supply" → ¬ (df.getD (df.length - 2) default).High ≥ z.bottom) := by
  simp only [sdCandidate] at h
  split at h
  · simp at h
  · split at h
    · simp at h
    · split at h
      · simp at h
      · split at h
        · simp at h
        · by_cases hdir : (df.getD (j + 1) default).Close > (df.getD (j + 1) default).Open
          · rw [if_pos hdir] at h
            simp only [List.getD_eq_getElem?_getD]
            simp at h
            obtain ⟨hlf, htouch, hrec⟩ := h
            subst hrec
            refine ⟨hlf, rfl, rfl, rfl, rfl, ?_, ?_⟩
            · intro _ hle
              exact absurd htouch (not_lt.mpr hle)
            · intro ht
              simp at ht
          · rw [if_neg hdir] at h
            simp only [List.getD_eq_getElem?_getD]
            simp at h
            obtain ⟨hlf, htouch, hrec⟩ := h
            subst hrec
            refine ⟨hlf, rfl, rfl, rfl, rfl, ?_, ?_⟩
            · intro ht
              simp at ht
            · intro _ hge
              exact absurd htouch (not_lt.mpr hge)

end SupplyDemand

/-! ### Claim C7 — supply/demand zone invalidation (confirmed) -/

open SupplyDemand in
/-- C7: every zone returned by `supply_demand.detect` is untouched — a demand
zone has the last closed candle's low strictly above its top and a supply
zone has the last closed high strictly below its bottom; and at the level of
a single candidate that has passed the session/indecision/impulse/bias
checks, the touch filter alone decides survival: touched → excluded
(`none`), untouched → the zone is produced. -/
theorem supply_demand_invalidation :
    (∀ (df : List Candle) (bias : String) (q : SDParams) (t : ℚ) (z : SDZone),
      z ∈ (SupplyDemand.detect df bias q t).zones →
      (z.type = "demand" → (df.getD (df.length - 2) default).Low > z.top) ∧
      (z.type = "supply" → (df.getD (df.length - 2) default).High < z.bottom)) ∧
    (∀ (df : List Candle) (q : SDParams) (lf : String) (ab : ℚ) (j : ℕ),
      _in_session (df.getD j default).time q.valid_sessions = true →
      _is_indecision (df.getD j default).Open (df.getD j default).High
        (df.getD j default).Low (df.getD j default).Close q.wick_ratio = true →
      ¬ |(df.getD (j+1) default).Close - (df.getD (j+1) default).Open| <
          ab * q.impulse_multiplier →
      ¬ ((df.getD (j+1) default).High - (df.getD (j+1) default).Low > 0 ∧
         |(df.getD (j+1) default).Close - (df.getD (j+1) default).Open| /
           ((df.getD (j+1) default).High - (df.getD (j+1) default).Low) < 60/100) →
      (if (df.getD (j+1) default).Close > (df.getD (j+1) default).Open
        then "demand" else "supply") = lf →
      (lf = "demand" →
        ((df.getD (df.length - 2) default).Low ≤ (df.getD j default).High →
          sdCandidate df q lf ab j = none) ∧
        ((df.getD (df.length - 2) default).Low > (df.getD j default).High →
          sdCandidate df q lf ab j = some
            { type := "demand", status := "active",
              session := _candle_session_or_pre (df.getD j default).time,
              is_active := true, start := (df.getD j default).time,
              endTs := (df.getD (df.length - 1) default).time,
              top := (df.getD j default).High, bottom := (df.getD j default).Low })) ∧
      (lf = "supply" →
        ((df.getD (df.length - 2) default).High ≥ (df.getD j default).Low →
          sdCandidate df q lf ab j = none) ∧
        ((df.getD (df.length - 2) default).High < (df.getD j default).Low →
          sdCandidate df q lf ab j = some
            { type := "supply", status := "active",
              session := _candle_session_or_pre (df.getD j default).time,
              is_active := true, start := (df.getD j default).time,
              endTs := (df.getD (df.length - 1) default).time,
              top := (df.getD j default).High, bottom := (df.getD j default).Low }))) := by
  constructor
  · intro df bias q t z hz
    simp only [SupplyDemand.detect] at hz
    split at hz
    · simp at hz
    · split at hz
      · simp at hz
      · simp only at hz
        rcases sdLoop_mem hz with h | ⟨j, hj1, hj2, hj3⟩
        · simp at h
        · obtain ⟨_, htop, hbot, _, _, hd, hs⟩ := sdCandidate_inv hj3
          exact ⟨fun ht => by rw [htop]; exact not_le.mp (by rw [← htop]; exact hd ht),
                 fun ht => not_le.mp (hs ht)⟩
  · intro df q lf ab j hse hind himp hwick htype
    constructor
    · intro hlf
      subst hlf
      constructor
      · intro hto
        simp only [sdCandidate]
        rw [if_neg (not_not_intro hse), if_neg (not_not_intro hind), if_neg himp,
          if_neg hwick, htype, if_neg (not_not_intro rfl), if_pos ⟨rfl, hto⟩]
      · intro hnt
        simp only [sdCandidate]
        rw [if_neg (not_not_intro hse), if_neg (not_not_intro hind), if_neg himp,
          if_neg hwick, htype, if_neg (not_not_intro rfl),
          if_neg (fun hc => absurd hc.2 (not_le.mpr hnt)),
          if_neg (fun hc => hc.1 rfl)]
    · intro hlf
      subst hlf
      constructor
      · intro hto
        simp only [sdCandidate]
        rw [if_neg (not_not_intro hse), if_neg (not_not_intro hind), if_neg himp,
          if_neg hwick, htype, if_neg (not_not_intro rfl),
          if_neg (fun hc => absurd hc.1 (by decide)),
          if_pos ⟨by decide, hto⟩]
      · intro hnt
        simp only [sdCandidate]
        rw [if_neg (not_not_intro hse), if_neg (not_not_intro hind), if_neg himp,
          if_neg hwick, htype, if_neg (not_not_intro rfl),
          if_neg (fun hc => absurd hc.1 (by decide)),
          if_neg (fun hc => absurd hc.2 (not_le.mpr hnt))]

namespace Accumulation

theorem finalize_fields {bo : Candle} {c : AccumCand} {sec : Option AccumCand}
    {z : AccumZone} (h : finalize bo c sec = .zone z) :
    z.top = c.top ∧ z.bottom = c.bottom ∧ z.start = c.start ∧ z.endTs = c.endTs ∧
    z.secondary_zone = sec := by
  simp only [finalize] at h
  split at h
  · injection h with h
    subst h
    exact ⟨rfl, rfl, rfl, rfl, rfl⟩
  · split at h
    · injection h with h
      subst h
      exact ⟨rfl, rfl, rfl, rfl, rfl⟩
    · split at h
      · cases h
      · injection h with h
        subst h
        exact ⟨rfl, rfl, rfl, rfl, rfl⟩

theorem detect_zone_inv {p : AccumParams} {now : Clock} {df : List Candle} {z : AccumZone}
    (hz : detect p now df = .zone z) :
    ∃ session c rest, get_current_session now = some session ∧
      rankedAll p session df = c :: rest ∧
      finalize (breakoutCandle df) c rest.head? = .zone z := by
  simp only [detect] at hz
  split at hz
  · cases hz
  · split at hz
    · cases hz
    · split at hz
      · cases hz
      · rename_i session hsess
        split at hz
        · cases hz
        · rename_i c rest hrank
          exact ⟨session, c, rest, hsess, hrank, hz⟩

end Accumulation

/-! ### Claim C6 — zone shape invariant (confirmed) -/

open Accumulation SupplyDemand Fvg in
/-- C6: for an input series with strictly increasing timestamps and
`high ≥ low` candles, every zone any detector returns satisfies
`top ≥ bottom` and `start ≤ end` (accumulation zones including the secondary
zone; supply/demand zones; FVG zones carry no start/end of their own, their
gap bounds satisfy `top ≥ bottom`). -/
theorem zone_shape_invariant (df : List Candle)
    (hsort : df.Pairwise (fun a b => a.time < b.time))
    (hhl : ∀ cd ∈ df, cd.Low ≤ cd.High) :
    (∀ (p : AccumParams) (now : Clock) (z : AccumZone),
      detect p now df = .zone z →
      (z.bottom ≤ z.top ∧ z.start ≤ z.endTs) ∧
      (∀ s, z.secondary_zone = some s → s.bottom ≤ s.top ∧ s.start ≤ s.endTs)) ∧
    (∀ (bias : String) (q : SDParams) (t : ℚ) (z : SDZone),
      z ∈ (SupplyDemand.detect df bias q t).zones →
      z.bottom ≤ z.top ∧ z.start ≤ z.endTs) ∧
    (∀ (i : ℕ) (mg ib : ℚ) (f : FvgZone),
      _check_fvg df i mg ib = some f → f.bottom ≤ f.top) := by
  refine ⟨?_, ?_, ?_⟩
  · intro p now z hz
    obtain ⟨session, c, rest, hsess, hrank, hfin⟩ := detect_zone_inv hz
    obtain ⟨ht, hb, hst, hen, hsec⟩ := finalize_fields hfin
    have hc : c ∈ rankedAll p session df := by
      rw [hrank]
      exact List.mem_cons_self c rest
    have hcs := rankedAll_shape hc
    constructor
    · rw [ht, hb, hst, hen]
      exact ⟨hcs.1, hcs.2 hsort⟩
    · intro s hs
      rw [hsec] at hs
      have hmem : s ∈ rankedAll p session df := by
        rw [hrank]
        rcases rest with _ | ⟨r0, rtl⟩
        · cases hs
        · simp only [List.head?] at hs
          injection hs with hs
          subst hs
          exact List.mem_cons_of_mem c (List.mem_cons_self _ _)
      have := rankedAll_shape hmem
      exact ⟨this.1, this.2 hsort⟩
  · intro bias q t z hz
    simp only [SupplyDemand.detect] at hz
    split at hz
    · simp at hz
    · split at hz
      · simp at hz
      · rename_i hbias hlen
        rcases sdLoop_mem hz with h | ⟨j, hj1, hj2, hj3⟩
        · simp at h
        · obtain ⟨_, htop, hbot, hst, hen, _, _⟩ := sdCandidate_inv hj3
          have hlen10 : 10 ≤ df.length := by omega
          have hjlt : j < df.length := by omega
          constructor
          · rw [htop, hbot]
            exact hhl _ (by rw [getD_eq_of_lt default hjlt]; exact df.getElem_mem hjlt)
          · rw [hst, hen]
            have hl1 : df.length - 1 < df.length := by omega
            rw [getD_eq_of_lt default hjlt, getD_eq_of_lt default hl1]
            exact pairwise_time_le hsort hjlt hl1 (by omega)
  · intro i mg ib f hf
    simp only [_check_fvg] at hf
    split_ifs at hf with h1 h2 h3 h4 h5 h6 h7
    all_goals try cases hf
    · simp only
      exact roundTo_mono 6 (le_of_lt (of_decide_eq_true h4))
    · simp only
      have hbear : (df.getD (i + 1) default).High < (df.getD (i - 1) default).Low := by
        by_contra hc
        apply h3
        rw [decide_eq_false (fun hlt => h4 (decide_eq_true hlt)), decide_eq_false hc]
        rfl
      exact roundTo_mono 6 (le_of_lt hbear)

/-! ### Claim C10 — short windows never rejected by the ADX filter (confirmed) -/

open Accumulation in
/-- C10: `_adx` returns `None` for every window of fewer than 11 candles
(the period auto-reduces to its minimum of 5 and `n < 2·5+1`); the scan
filter only rejects when a numeric ADX exists and exceeds the threshold, so
`adx = None` never rejects; and on a concrete series whose candidate window
has 5 candles, that window is selected as the active zone with `adx = None`. -/
theorem adx_none_short_window :
    (∀ (highs lows closes : List ℚ), closes.length < 11 →
      _adx highs lows closes 14 = none) ∧
    (∀ thr : ℚ, adxRejects none thr = false) ∧
    (detect pSmall clockAsian dfActive =
      .zone { toAccumCand := { candFound with status := "active" } } ∧
     ({ candFound with status := "active" } : AccumCand).adx = none) := by
  refine ⟨?_, fun thr => rfl, ?_, rfl⟩
  · intro highs lows closes hlen
    have hper : ∀ n : ℕ, n < 11 → adxPeriod 14 n = 5 := by
      intro n hn
      interval_cases n <;> rfl
    simp only [_adx, hper closes.length hlen]
    rw [if_pos (by omega)]
  · with_unfolding_all rfl

theorem adx_none_short_window_witness :
    ([] : List ℚ).length < 11 ∧ Accumulation._adx [] [] [] 14 = none :=
  ⟨by decide, adx_none_short_window.1 [] [] [] (by decide)⟩

open Accumulation in
theorem accumulation_ranking_witness :
    ∃ (c : AccumCand) (rest : List AccumCand),
      rankedAll pSmall "asian" dfActive = c :: rest ∧
      ∀ z, detect pSmall clockAsian dfActive = .zone z →
        z.top = c.top ∧ z.bottom = c.bottom ∧ z.start = c.start ∧ z.endTs = c.endTs ∧
        z.secondary_zone = rest.head? :=
  ⟨candFound, [], by with_unfolding_all rfl,
    (accumulation_ranking pSmall "asian" dfActive).2.2 clockAsian candFound [] rfl
      (by decide) rfl (by with_unfolding_all rfl)⟩

open Accumulation in
theorem zone_shape_invariant_witness :
    ({ candFound with status := "active" } : AccumCand).bottom ≤
      ({ candFound with status := "active" } : AccumCand).top ∧
    ({ candFound with status := "active" } : AccumCand).start ≤
      ({ candFound with status := "active" } : AccumCand).endTs :=
  ((zone_shape_invariant dfActive (by decide) (by with_unfolding_all decide)).1
    pSmall clockAsian { toAccumCand := { candFound with status := "active" } }
    (by with_unfolding_all rfl)).1

open SupplyDemand in
theorem supply_demand_invalidation_witness :
    sdCandidate dfSD {} "demand" (31/240) 5 = some
      { type := "demand", status := "active", session := some "asian",
        is_active := true, start := 7500, endTs := 7860,
        top := 1003/10, bottom := 997/10 } ∧
    (dfSD.getD (dfSD.length - 2) default).Low > (1003/10 : ℚ) := by
  constructor
  · have h := ((supply_demand_invalidation.2 dfSD {} "demand" (31/240) 5
        (by with_unfolding_all decide) (by with_unfolding_all decide)
        (by with_unfolding_all decide) (by with_unfolding_all decide)
        (by with_unfolding_all decide)).1 rfl).2 (by with_unfolding_all decide)
    rw [h]
    with_unfolding_all rfl
  · with_unfolding_all decide
